import Mathlib

/-!
Shallow embedding of the `internal/posts` service of `jeremyjsx/entries`
(Go): the post orchestration service (`service.go`) over its two external
collaborators, the metadata repository (`repository.go`,
`repository_postgres.go`) and the blob store (`storage.Storage`), plus the
event publisher (`events.Publisher`).

The collaborators are modelled as state (metadata rows, blob key/value
pairs) together with an injected fault table (`Faults`): each store call
first consults the fault table for its operation and key; a `some e` entry
makes the call fail with error `e` and leave the state unchanged, a `none`
entry lets the call proceed with its normal semantics.  Every store call,
successful or not, is appended to an observable trace, so theorems can
speak about which calls were and were not made and in which order.

Go errors are modelled by the inductive `GoErr`: the sentinel errors
`posts.ErrNotFound`, `posts.ErrSlugExists` and `storage.ErrNotFound` are
constructors, `fmt.Errorf("msg: %w", err)` is `GoErr.wrapped msg err`, and
opaque store/network errors are `GoErr.storeErr n`.

`uuid.New()` is modelled by the counter `World.nextId`; generated
identifiers are the decimal rendering of the counter value.
-/

namespace Entries

/-- `posts.Status`: `draft` or `published` (model.go). -/
inductive Status where
  | draft
  | published
deriving DecidableEq, Repr

/-- `posts.Post` (model.go); `createdAt`/`updatedAt` omitted, `uuid.UUID`
ids modelled as `Nat`. -/
structure Post where
  id : Nat
  title : String
  slug : String
  s3Key : String
  status : Status
deriving DecidableEq, Repr

/-- Go error values as they matter to the service: the package sentinel
errors, wrapped errors built with `fmt.Errorf("...: %w", err)`, and opaque
backend errors. -/
inductive GoErr where
  /-- `posts.ErrNotFound` -/
  | postNotFound
  /-- `posts.ErrSlugExists` -/
  | slugExists
  /-- `storage.ErrNotFound` -/
  | blobNotFound
  /-- an opaque store / network error -/
  | storeErr (n : Nat)
  /-- `fmt.Errorf(msg ++ ": %w", e)` -/
  | wrapped (msg : String) (e : GoErr)
deriving DecidableEq, Repr

/-- One observable call to a collaborator (metadata repository, blob store
or event publisher), recorded in program order. -/
inductive Op where
  | repoCreate (title slug s3Key : String)
  | repoGet (slug : String)
  | repoList (limit offset : Int) (status : Option Status)
  | repoCount (status : Option Status)
  | repoUpdate (id : Nat) (title slug s3Key : String)
  | repoDelete (slug : String)
  | repoPublish (slug : String)
  | blobUpload (key content contentType : String)
  | blobDownload (key : String)
  | blobDelete (key : String)
  | blobDeletePrefix (p : String)
  | notify (id : Nat) (slug title : String)
deriving DecidableEq, Repr

/-- Fault injection for the external collaborators: `some e` makes the
corresponding call fail with `e` (state unchanged), `none` gives the call
its normal semantics. -/
structure Faults where
  uploadErr : String → Option GoErr
  downloadErr : String → Option GoErr
  deleteErr : String → Option GoErr
  deletePrefixErr : String → Option GoErr
  repoCreateErr : String → Option GoErr
  repoGetErr : String → Option GoErr
  repoListErr : Option GoErr
  repoCountErr : Option GoErr
  repoUpdateErr : Option GoErr
  repoDeleteErr : String → Option GoErr
  repoPublishErr : String → Option GoErr
  notifyErr : Option GoErr

/-- The fault table in which every call succeeds. -/
def Faults.none : Faults where
  uploadErr := fun _ => Option.none
  downloadErr := fun _ => Option.none
  deleteErr := fun _ => Option.none
  deletePrefixErr := fun _ => Option.none
  repoCreateErr := fun _ => Option.none
  repoGetErr := fun _ => Option.none
  repoListErr := Option.none
  repoCountErr := Option.none
  repoUpdateErr := Option.none
  repoDeleteErr := fun _ => Option.none
  repoPublishErr := fun _ => Option.none
  notifyErr := Option.none

/-- `posts.Service` configuration (service.go `ServiceConfig` plus the
injected collaborator behaviour). -/
structure Service where
  s3Bucket : String
  awsRegion : String
  s3PublicBaseURL : String
  faults : Faults

/-- The mutable state of the two stores plus the observables: metadata
rows, blob objects (most recent write first), the uuid counter, the call
trace, and warning log lines. -/
structure World where
  rows : List Post
  blobs : List (String × String)
  nextId : Nat
  trace : List Op
  log : List String

/-- Append one call to the trace. -/
def World.rec1 (w : World) (o : Op) : World :=
  { w with trace := w.trace ++ [o] }

/-- `Repository.Create` (repository_postgres.go): insert a draft row,
`ErrSlugExists` on unique-index violation. -/
def repoCreate (sv : Service) (title slug s3Key : String) (w : World) :
    Except GoErr Post × World :=
  let w := w.rec1 (.repoCreate title slug s3Key)
  match sv.faults.repoCreateErr slug with
  | some e => (.error e, w)
  | none =>
    if w.rows.any (fun r => r.slug = slug) then
      (.error .slugExists, w)
    else
      let p : Post :=
        { id := w.nextId, title := title, slug := slug, s3Key := s3Key,
          status := .draft }
      (.ok p, { w with rows := w.rows ++ [p], nextId := w.nextId + 1 })

/-- `Repository.GetBySlug`: `ErrNotFound` when no row has the slug. -/
def repoGetBySlug (sv : Service) (slug : String) (w : World) :
    Except GoErr Post × World :=
  let w := w.rec1 (.repoGet slug)
  match sv.faults.repoGetErr slug with
  | some e => (.error e, w)
  | none =>
    match w.rows.find? (fun r => r.slug = slug) with
    | some p => (.ok p, w)
    | none => (.error .postNotFound, w)

/-- `Repository.List`: the filtered rows, windowed by offset/limit. -/
def repoList (sv : Service) (limit offset : Int) (status : Option Status)
    (w : World) : Except GoErr (List Post) × World :=
  let w := w.rec1 (.repoList limit offset status)
  match sv.faults.repoListErr with
  | some e => (.error e, w)
  | none =>
    let filtered := w.rows.filter
      (fun r => match status with
        | some st => r.status = st
        | none => true)
    (.ok ((filtered.drop offset.toNat).take limit.toNat), w)

/-- `Repository.Count`: number of rows passing the status filter. -/
def repoCount (sv : Service) (status : Option Status) (w : World) :
    Except GoErr Nat × World :=
  let w := w.rec1 (.repoCount status)
  match sv.faults.repoCountErr with
  | some e => (.error e, w)
  | none =>
    (.ok (w.rows.filter
      (fun r => match status with
        | some st => r.status = st
        | none => true)).length, w)

/-- `Repository.Update`: find the row by id (`ErrNotFound` if gone),
`ErrSlugExists` when another row already holds the new slug. -/
def repoUpdate (sv : Service) (id : Nat) (title slug s3Key : String)
    (w : World) : Except GoErr Post × World :=
  let w := w.rec1 (.repoUpdate id title slug s3Key)
  match sv.faults.repoUpdateErr with
  | some e => (.error e, w)
  | none =>
    match w.rows.find? (fun r => r.id = id) with
    | none => (.error .postNotFound, w)
    | some old =>
      if w.rows.any (fun r => r.slug = slug ∧ r.id ≠ id) then
        (.error .slugExists, w)
      else
        let p : Post := { old with title := title, slug := slug, s3Key := s3Key }
        (.ok p, { w with rows := w.rows.map (fun r => if r.id = id then p else r) })

/-- `Repository.Delete`: `DELETE FROM posts WHERE slug = $1` — removes
matching rows, succeeds even when none match. -/
def repoDelete (sv : Service) (slug : String) (w : World) :
    Except GoErr Unit × World :=
  let w := w.rec1 (.repoDelete slug)
  match sv.faults.repoDeleteErr slug with
  | some e => (.error e, w)
  | none => (.ok (), { w with rows := w.rows.filter (fun r => r.slug ≠ slug) })

/-- `Repository.Publish`: `UPDATE ... WHERE slug = $1 AND status = 'draft'`;
no matching row (absent or already published) is `ErrNotFound`. -/
def repoPublish (sv : Service) (slug : String) (w : World) :
    Except GoErr Post × World :=
  let w := w.rec1 (.repoPublish slug)
  match sv.faults.repoPublishErr slug with
  | some e => (.error e, w)
  | none =>
    match w.rows.find? (fun r => r.slug = slug ∧ r.status = .draft) with
    | none => (.error .postNotFound, w)
    | some p =>
      let p' : Post := { p with status := .published }
      (.ok p',
        { w with rows := w.rows.map (fun r => if r.slug = slug ∧ r.status = .draft then p' else r) })

/-- `Storage.Upload`: write the object (most recent write shadows older
ones at the same key). -/
def blobUpload (sv : Service) (key content contentType : String) (w : World) :
    Except GoErr Unit × World :=
  let w := w.rec1 (.blobUpload key content contentType)
  match sv.faults.uploadErr key with
  | some e => (.error e, w)
  | none => (.ok (), { w with blobs := (key, content) :: w.blobs })

/-- `Storage.Download`: `storage.ErrNotFound` when the key is absent. -/
def blobDownload (sv : Service) (key : String) (w : World) :
    Except GoErr String × World :=
  let w := w.rec1 (.blobDownload key)
  match sv.faults.downloadErr key with
  | some e => (.error e, w)
  | none =>
    match w.blobs.lookup key with
    | some c => (.ok c, w)
    | none => (.error .blobNotFound, w)

/-- `Storage.Delete`: remove the key; deleting an absent key succeeds. -/
def blobDelete (sv : Service) (key : String) (w : World) :
    Except GoErr Unit × World :=
  let w := w.rec1 (.blobDelete key)
  match sv.faults.deleteErr key with
  | some e => (.error e, w)
  | none => (.ok (), { w with blobs := w.blobs.filter (fun kv => kv.1 ≠ key) })

/-- `Storage.DeletePrefix`: bulk-remove every key sharing the prefix. -/
def blobDeletePrefix (sv : Service) (p : String) (w : World) :
    Except GoErr Unit × World :=
  let w := w.rec1 (.blobDeletePrefix p)
  match sv.faults.deletePrefixErr p with
  | some e => (.error e, w)
  | none =>
    (.ok (), { w with blobs := w.blobs.filter (fun kv => ¬ p.isPrefixOf kv.1) })

/-- `events.Publisher.PublishPostPublished`. -/
def notifyPublished (sv : Service) (id : Nat) (slug title : String) (w : World) :
    Except GoErr Unit × World :=
  let w := w.rec1 (.notify id slug title)
  match sv.faults.notifyErr with
  | some e => (.error e, w)
  | none => (.ok (), w)

/-- `maxImageSize = 5 << 20` (service.go). -/
def maxImageSize : Nat := 5 * 2 ^ 20

/-- Value of a base64 alphabet character (`encoding/base64` standard
alphabet), `none` for anything outside it. -/
def b64Val (c : Char) : Option Nat :=
  if 'A' ≤ c ∧ c ≤ 'Z' then some (c.toNat - 65)
  else if 'a' ≤ c ∧ c ≤ 'z' then some (c.toNat - 71)
  else if '0' ≤ c ∧ c ≤ '9' then some (c.toNat + 4)
  else if c = '+' then some 62
  else if c = '/' then some 63
  else none

/-- `base64.StdEncoding.DecodeString`: standard alphabet, mandatory
padding, padding only in the final quantum, non-strict about trailing
bits.  Bytes are `Nat`s below 256. -/
def base64Decode : List Char → Option (List Nat)
  | [] => some []
  | a :: b :: c :: d :: rest =>
    match b64Val a, b64Val b with
    | some va, some vb =>
      if c = '=' then
        if d = '=' ∧ rest = [] then some [va * 4 + vb / 16] else none
      else
        match b64Val c with
        | some vc =>
          if d = '=' then
            if rest = [] then some [va * 4 + vb / 16, (vb % 16) * 16 + vc / 4]
            else none
          else
            match b64Val d with
            | some vd =>
              (base64Decode rest).map
                (fun bs => (va * 4 + vb / 16) :: ((vb % 16) * 16 + vc / 4) ::
                  ((vc % 4) * 64 + vd) :: bs)
            | none => none
        | none => none
    | _, _ => none
  | _ => none

/-- Go's `string(data)` on decoded bytes: each byte as one unit. -/
def bytesToString (bs : List Nat) : String :=
  String.mk (bs.map Char.ofNat)

/-- `allowedTypes` (service.go): subtype → content type. -/
def allowedTypes (ext : String) : Option String :=
  if ext = "png" then some "image/png"
  else if ext = "jpeg" then some "image/jpeg"
  else if ext = "jpg" then some "image/jpeg"
  else if ext = "webp" then some "image/webp"
  else if ext = "gif" then some "image/gif"
  else none

/-- `Service.s3PublicURL` (service.go). -/
def s3PublicURL (sv : Service) (key : String) : String :=
  if sv.s3PublicBaseURL ≠ "" then sv.s3PublicBaseURL ++ "/" ++ key
  else "https://" ++ sv.s3Bucket ++ ".s3." ++ sv.awsRegion ++ ".amazonaws.com/" ++ key

/-- `[a-zA-Z]` -/
def isAsciiAlpha (c : Char) : Bool :=
  ('a' ≤ c ∧ c ≤ 'z') ∨ ('A' ≤ c ∧ c ≤ 'Z')

/-- One match of `dataURLImageRegex`
`!\[([^\]]*)\]\(data:image/([a-zA-Z]+);base64,([^)]+)\)`:
the three submatches, with `ext` as written in the text. -/
structure ImgMatch where
  alt : List Char
  ext : List Char
  payload : List Char
deriving DecidableEq, Repr

/-- The text the match was made of (what the regex consumed):
`![{alt}](data:image/{ext};base64,{payload})`. -/
def ImgMatch.text (m : ImgMatch) : List Char :=
  '!' :: '[' :: (m.alt ++ (']' :: '(' :: ("data:image/".data ++
    (m.ext ++ (";base64,".data ++ (m.payload ++ [')']))))))

/-- Match `dataURLImageRegex` at the head of the input: each capture class
is deterministic (greedy run up to its forced follower), exactly as RE2
resolves this pattern.  Returns the match and the remaining input. -/
def parseMatch : List Char → Option (ImgMatch × List Char)
  | '!' :: '[' :: cs1 =>
    match cs1.dropWhile (fun c => c ≠ ']') with
    | ']' :: '(' :: cs2 =>
      if "data:image/".data.isPrefixOf cs2 then
        if ((cs2.drop 11).takeWhile isAsciiAlpha).isEmpty then none
        else
          if ";base64,".data.isPrefixOf ((cs2.drop 11).dropWhile isAsciiAlpha) then
            if ((((cs2.drop 11).dropWhile isAsciiAlpha).drop 8).takeWhile
                (fun c => c ≠ ')')).isEmpty then none
            else
              match (((cs2.drop 11).dropWhile isAsciiAlpha).drop 8).dropWhile
                  (fun c => c ≠ ')') with
              | ')' :: rest =>
                some (⟨cs1.takeWhile (fun c => c ≠ ']'),
                  (cs2.drop 11).takeWhile isAsciiAlpha,
                  (((cs2.drop 11).dropWhile isAsciiAlpha).drop 8).takeWhile
                    (fun c => c ≠ ')')⟩, rest)
              | _ => none
          else none
      else none
    | _ => none
  | _ => none

/-- `dropWhile` does not lengthen a list. -/
def dropWhile_len_le (p : Char → Bool) (l : List Char) :
    (l.dropWhile p).length ≤ l.length :=
  (l.dropWhile_suffix p).length_le

/-- `drop` does not lengthen a list. -/
def drop_len_le (n : Nat) (l : List Char) :
    (l.drop n).length ≤ l.length := by
  simp

/-- A successful head match consumes at least one character. -/
def parseMatch_length_lt (cs : List Char) (m : ImgMatch) (rest : List Char)
    (h : parseMatch cs = some (m, rest)) : rest.length < cs.length := by
  unfold parseMatch at h
  split at h
  case _ cs1 =>
    have hd1 : (cs1.dropWhile (fun c => c ≠ ']')).length ≤ cs1.length :=
      dropWhile_len_le _ _
    split at h
    case _ cs2 heq =>
      have hcs2 : cs2.length + 2 ≤ cs1.length := by
        rw [heq] at hd1
        simpa using hd1
      split at h
      case isTrue =>
        split at h
        case isTrue => exact absurd h (by simp)
        case isFalse =>
          split at h
          case isTrue =>
            split at h
            case isTrue => exact absurd h (by simp)
            case isFalse =>
              have hd5 :
                  (((cs2.drop 11).dropWhile isAsciiAlpha).drop 8).length ≤ cs2.length :=
                le_trans (drop_len_le _ _)
                  (le_trans (dropWhile_len_le _ _) (drop_len_le _ _))
              split at h
              case _ rest' heq2 =>
                have hle :
                    ((((cs2.drop 11).dropWhile isAsciiAlpha).drop 8).dropWhile
                      (fun c => c ≠ ')')).length ≤
                    (((cs2.drop 11).dropWhile isAsciiAlpha).drop 8).length :=
                  dropWhile_len_le _ _
                rw [heq2] at hle
                simp only [List.length_cons] at hle
                simp only [Option.some.injEq, Prod.mk.injEq] at h
                have hrr : rest' = rest := h.2
                subst hrr
                simp only [List.length_cons]
                omega
              case _ => exact absurd h (by simp)
          case isFalse => exact absurd h (by simp)
      case isFalse => exact absurd h (by simp)
    case _ => exact absurd h (by simp)
  case _ => exact absurd h (by simp)

/-- The body of the `ReplaceAllStringFunc` closure in
`Service.processMarkdownImages` (service.go): validate the subtype, strip
newlines from and decode the payload, enforce the size cap, upload the
bytes under a fresh image key, and on success produce the rewritten image
reference — on any local failure return the original match text. -/
def processOne (sv : Service) (slug : String) (m : ImgMatch) (w : World) :
    List Char × World :=
  let ext := m.ext.map Char.toLower
  match allowedTypes (String.mk ext) with
  | none => (m.text, w)
  | some contentType =>
    let cleaned := m.payload.filter (fun c => c ≠ '\n' ∧ c ≠ '\r')
    match base64Decode cleaned with
    | none => (m.text, w)
    | some data =>
      if data.length > maxImageSize then (m.text, w)
      else
        let key := "posts/" ++ slug ++ "/images/" ++ toString w.nextId ++ "." ++
          String.mk ext
        let w1 : World := { w with nextId := w.nextId + 1 }
        match blobUpload sv key (bytesToString data) contentType w1 with
        | (.error _, w2) => (m.text, w2)
        | (.ok _, w2) =>
          ("![".data ++ m.alt ++ "](".data ++ (s3PublicURL sv key).data ++ [')'], w2)

/-- `regexp.ReplaceAllStringFunc` specialised to `dataURLImageRegex`:
leftmost scan, each match replaced by the closure's result, everything
else copied unchanged. -/
def scanImages (sv : Service) (slug : String) (cs : List Char) (w : World) :
    List Char × World :=
  match hps : parseMatch cs with
  | some (m, rest) =>
    let pr := processOne sv slug m w
    let tl := scanImages sv slug rest pr.2
    (pr.1 ++ tl.1, tl.2)
  | none =>
    match cs with
    | [] => ([], w)
    | c :: cs1 =>
      let tl := scanImages sv slug cs1 w
      (c :: tl.1, tl.2)
termination_by cs.length
decreasing_by
  · exact parseMatch_length_lt _ _ _ hps
  · simp

/-- `Service.processMarkdownImages` (service.go). -/
def processMarkdownImages (sv : Service) (slug content : String) (w : World) :
    String × World :=
  let r := scanImages sv slug content.data w
  (String.mk r.1, r.2)

/-- The content key `posts/{slug}.md`. -/
def contentKey (slug : String) : String := "posts/" ++ slug ++ ".md"

/-- The image prefix `posts/{slug}/images/`. -/
def imagesPrefix (slug : String) : String := "posts/" ++ slug ++ "/images/"

/-- `Service.CreatePost` (service.go): metadata insert first, then the
image pipeline, then the content upload with a compensating metadata
delete (its own error discarded) when the upload fails. -/
def createPost (sv : Service) (title slug content : String) (w : World) :
    Except GoErr Post × World :=
  let s3Key := contentKey slug
  match repoCreate sv title slug s3Key w with
  | (.error e, w1) => (.error e, w1)
  | (.ok post, w1) =>
    let pc := processMarkdownImages sv slug content w1
    match blobUpload sv s3Key pc.1 "text/markdown" pc.2 with
    | (.error e, w3) =>
      let d := repoDelete sv slug w3
      (.error (.wrapped "upload to s3" e), d.2)
    | (.ok _, w3) => (.ok post, w3)

/-- `Service.GetPostBySlug` (service.go). -/
def getPostBySlug (sv : Service) (slug : String) (w : World) :
    Except GoErr Post × World :=
  repoGetBySlug sv slug w

/-- `Service.GetPostContent` (service.go): metadata lookup, then download
of the row's content key, with `storage.ErrNotFound` translated to
`posts.ErrNotFound`. -/
def getPostContent (sv : Service) (slug : String) (w : World) :
    Except GoErr String × World :=
  match repoGetBySlug sv slug w with
  | (.error e, w1) => (.error e, w1)
  | (.ok post, w1) =>
    match blobDownload sv post.s3Key w1 with
    | (.error e, w2) =>
      if e = .blobNotFound then (.error .postNotFound, w2)
      else (.error (.wrapped "download from s3" e), w2)
    | (.ok body, w2) => (.ok body, w2)

/-- `posts.ListResult` (model.go), timestamps and ids as in `Post`. -/
structure ListResult where
  posts : List Post
  total : Nat
  page : Int
  perPage : Int
  totalPages : Nat
deriving DecidableEq, Repr

/-- `Service.ListPosts` (service.go): pagination normalization, page
fetch, count, `totalPages` with remainder rounding. -/
def listPosts (sv : Service) (page perPage : Int) (status : Option Status)
    (w : World) : Except GoErr ListResult × World :=
  let page := if page < 1 then 1 else page
  let perPage := if perPage < 1 ∨ perPage > 100 then 20 else perPage
  let offset := (page - 1) * perPage
  match repoList sv perPage offset status w with
  | (.error e, w1) => (.error e, w1)
  | (.ok posts, w1) =>
    match repoCount sv status w1 with
    | (.error e, w2) => (.error e, w2)
    | (.ok total, w2) =>
      let totalPages := total / perPage.toNat +
        (if total % perPage.toNat > 0 then 1 else 0)
      (.ok { posts := posts, total := total, page := page, perPage := perPage,
             totalPages := totalPages }, w2)

/-- `Service.UpdatePost` (service.go): optional title/slug/content;
content branch re-runs the pipeline and best-effort deletes the old key on
rename; the no-content rename branch migrates the blob (download old key,
upload new key, best-effort delete old key); the unchanged branch does no
blob I/O; finally the metadata update. -/
def updatePost (sv : Service) (currentSlug : String)
    (title newSlug content : Option String) (w : World) :
    Except GoErr Post × World :=
  match repoGetBySlug sv currentSlug w with
  | (.error e, w1) => (.error e, w1)
  | (.ok post, w1) =>
    let titleToUse := match title with
      | some t => t
      | none => post.title
    let slugToUse := match newSlug with
      | some ns => ns
      | none => post.slug
    match content with
    | some c =>
      let pc := processMarkdownImages sv slugToUse c w1
      let s3Key := contentKey slugToUse
      match blobUpload sv s3Key pc.1 "text/markdown" pc.2 with
      | (.error e, w2) => (.error (.wrapped "upload to s3" e), w2)
      | (.ok _, w2) =>
        if currentSlug ≠ slugToUse then
          let d := blobDelete sv (contentKey currentSlug) w2
          repoUpdate sv post.id titleToUse slugToUse s3Key d.2
        else
          repoUpdate sv post.id titleToUse slugToUse s3Key w2
    | none =>
      if slugToUse ≠ currentSlug then
        match blobDownload sv post.s3Key w1 with
        | (.error e, w2) => (.error (.wrapped "download current content" e), w2)
        | (.ok data, w2) =>
          match blobUpload sv (contentKey slugToUse) data "text/markdown" w2 with
          | (.error e, w3) => (.error (.wrapped "upload to s3" e), w3)
          | (.ok _, w3) =>
            let d := blobDelete sv post.s3Key w3
            repoUpdate sv post.id titleToUse slugToUse (contentKey slugToUse) d.2
      else
        repoUpdate sv post.id titleToUse slugToUse post.s3Key w1

/-- `Service.DeletePost` (service.go): metadata lookup, content-blob
delete (skipped when the stored key is empty, fatal on failure), image
prefix delete (fatal on failure), metadata delete last. -/
def deletePost (sv : Service) (slug : String) (w : World) :
    Except GoErr Unit × World :=
  match repoGetBySlug sv slug w with
  | (.error e, w1) => (.error e, w1)
  | (.ok post, w1) =>
    let afterContent : Except GoErr Unit × World :=
      if post.s3Key ≠ "" then
        match blobDelete sv post.s3Key w1 with
        | (.error e, w2) => (.error (.wrapped "delete from s3" e), w2)
        | (.ok _, w2) => (.ok (), w2)
      else (.ok (), w1)
    match afterContent with
    | (.error e, w2) => (.error e, w2)
    | (.ok _, w2) =>
      match blobDeletePrefix sv (imagesPrefix post.slug) w2 with
      | (.error e, w3) => (.error (.wrapped "delete images from s3" e), w3)
      | (.ok _, w3) => repoDelete sv slug w3

/-- `Service.PublishPost` (service.go): the repository performs the
Draft→Published transition; on success one best-effort notification whose
failure is only logged. -/
def publishPost (sv : Service) (slug : String) (w : World) :
    Except GoErr Post × World :=
  match repoPublish sv slug w with
  | (.error e, w1) => (.error e, w1)
  | (.ok post, w1) =>
    match notifyPublished sv post.id post.slug post.title w1 with
    | (.error _, w2) =>
      (.ok post,
        { w2 with log := w2.log ++ ["failed to publish post.published event"] })
    | (.ok _, w2) => (.ok post, w2)

/-! ## Token decomposition of the scan -/

/-- A token of the scanned markdown: one unmatched character, or one match
of `dataURLImageRegex`. -/
inductive MdTok where
  | lit (c : Char)
  | img (m : ImgMatch)
deriving DecidableEq, Repr

/-- Decompose a text into the leftmost-scan token sequence: at each
position either the regex matches (one `img` token, scanning resumes
after the match) or the character is copied through (`lit`). -/
def mdTokens (cs : List Char) : List MdTok :=
  match hps : parseMatch cs with
  | some (m, rest) => .img m :: mdTokens rest
  | none =>
    match cs with
    | [] => []
    | c :: cs1 => .lit c :: mdTokens cs1
termination_by cs.length
decreasing_by
  · exact parseMatch_length_lt _ _ _ hps
  · simp

/-- The source text a token stands for. -/
def MdTok.flat : MdTok → List Char
  | .lit c => [c]
  | .img m => m.text

/-- Render a token sequence: literals copied, each image match handed to
`processOne`, the world threaded left to right. -/
def renderTokens (sv : Service) (slug : String) :
    List MdTok → World → List Char × World
  | [], w => ([], w)
  | .lit c :: ts, w =>
    let r := renderTokens sv slug ts w
    (c :: r.1, r.2)
  | .img m :: ts, w =>
    let pr := processOne sv slug m w
    let r := renderTokens sv slug ts pr.2
    (pr.1 ++ r.1, r.2)

/-! ## Concrete fixtures used by the witnesses -/

/-- A service with no injected faults. -/
def svOk : Service := ⟨"bkt", "reg", "", Faults.none⟩

/-- The empty world. -/
def w0 : World := ⟨[], [], 0, [], []⟩

/-- A draft post with slug `a`. -/
def postA : Post := ⟨7, "T", "a", "posts/a.md", .draft⟩

/-- A world holding `postA` and its content blob. -/
def wA : World := ⟨[postA], [("posts/a.md", "body")], 8, [], []⟩

/-- A world holding 21 draft posts. -/
def w21 : World :=
  ⟨(List.range 21).map (fun i => ⟨i, "T", "s" ++ toString i, "k", .draft⟩),
    [], 21, [], []⟩

/-- Like `wA` but with an empty blob store. -/
def wAEmptyBlobs : World := ⟨[postA], [], 8, [], []⟩

/-- A post whose stored content key is empty. -/
def postEmptyKey : Post := ⟨5, "T", "empty-key", "", .draft⟩

/-- A world holding only `postEmptyKey`. -/
def wEmptyKey : World := ⟨[postEmptyKey], [], 6, [], []⟩

/-- A service whose blob delete of `posts/a.md` fails. -/
def svDeleteFail : Service :=
  ⟨"bkt", "reg", "",
    { Faults.none with
      deleteErr := fun k =>
        if k = "posts/a.md" then some (.storeErr 4) else Option.none }⟩

/-- A service whose prefix delete of `posts/a/images/` fails. -/
def svPrefixFail : Service :=
  ⟨"bkt", "reg", "",
    { Faults.none with
      deletePrefixErr := fun k =>
        if k = "posts/a/images/" then some (.storeErr 5) else Option.none }⟩

/-- A service whose blob upload of `posts/b.md` fails. -/
def svUploadFailB : Service :=
  ⟨"bkt", "reg", "",
    { Faults.none with
      uploadErr := fun k =>
        if k = "posts/b.md" then some (.storeErr 6) else Option.none }⟩

/-- A service whose notifier always fails. -/
def svNotifyFail : Service :=
  ⟨"bkt", "reg", "", { Faults.none with notifyErr := some (.storeErr 9) }⟩

/-- A service whose blob download of `posts/a.md` fails with an opaque
error. -/
def svDownloadFail : Service :=
  ⟨"bkt", "reg", "",
    { Faults.none with
      downloadErr := fun k =>
        if k = "posts/a.md" then some (.storeErr 3) else Option.none }⟩

/-- The image key `posts/{slug}/images/{id}.{ext}` as built in
`processMarkdownImages`. -/
def imgKey (slug : String) (n : Nat) (ext : List Char) : String :=
  "posts/" ++ slug ++ "/images/" ++ toString n ++ "." ++ String.mk ext

/-- A service with a configured public base URL. -/
def svBase : Service := ⟨"bkt", "reg", "https://cdn.example", Faults.none⟩

/-- A match with an allow-listed subtype and valid payload. -/
def mPng : ImgMatch := ⟨"a".data, "png".data, "QQ==".data⟩

/-- A match whose payload is not valid base64. -/
def mBadB64 : ImgMatch := ⟨"a".data, "png".data, "****".data⟩

/-- A match with a disallowed subtype. -/
def mSvg : ImgMatch := ⟨"a".data, "svg".data, "QQ==".data⟩

/-- A service whose upload of the first generated image key under slug
`sl` fails. -/
def svImgUploadFail : Service :=
  ⟨"bkt", "reg", "",
    { Faults.none with
      uploadErr := fun k =>
        if k = "posts/sl/images/0.png" then some (.storeErr 8) else Option.none }⟩

/-! ## Lemmas -/

theorem scanImages_eq_renderTokens (sv : Service) (slug : String)
    (cs : List Char) (w : World) :
    scanImages sv slug cs w = renderTokens sv slug (mdTokens cs) w := by
  induction cs using mdTokens.induct generalizing w with
  | case1 cs m rest hps ih =>
    rw [scanImages, mdTokens]
    split
    case _ m2 rest2 hps2 =>
      rw [hps] at hps2
      obtain ⟨rfl, rfl⟩ : m = m2 ∧ rest = rest2 := by
        simpa using hps2
      simp [renderTokens, ih]
    case _ hps2 => rw [hps] at hps2; exact absurd hps2 (by simp)
  | case2 hps =>
    rw [scanImages, mdTokens]
    rfl
  | case3 c cs1 hps hpsb ih =>
    rw [scanImages, mdTokens]
    split
    case _ m2 rest2 hps2 => rw [hps] at hps2; exact absurd hps2 (by simp)
    case _ hps2 => simp [renderTokens, ih]

/-- Parser soundness: a head match's text followed by the rest is the
whole input. -/
theorem parseMatch_append (cs : List Char) (m : ImgMatch) (rest : List Char)
    (h : parseMatch cs = some (m, rest)) : m.text ++ rest = cs := by
  unfold parseMatch at h
  split at h
  case _ cs1 =>
    split at h
    case _ cs2 heq =>
      split at h
      case isTrue hpre =>
        split at h
        case isTrue => exact absurd h (by simp)
        case isFalse =>
          split at h
          case isTrue hpre2 =>
            split at h
            case isTrue => exact absurd h (by simp)
            case isFalse =>
              split at h
              case _ restp heq2 =>
                simp only [Option.some.injEq, Prod.mk.injEq] at h
                obtain ⟨rfl, hr⟩ := h
                rw [← hr]
                have h1 : cs1.takeWhile (fun c => c ≠ ']') ++ (']' :: '(' :: cs2) = cs1 := by
                  rw [← heq]
                  exact List.takeWhile_append_dropWhile _ _
                obtain ⟨t2, ht2⟩ : "data:image/".data <+: cs2 :=
                  List.isPrefixOf_iff_prefix.mp hpre
                have hdrop2 : cs2.drop 11 = t2 := by
                  rw [← ht2]
                  exact List.drop_left' (by decide)
                have h3 : (cs2.drop 11).takeWhile isAsciiAlpha ++
                    (cs2.drop 11).dropWhile isAsciiAlpha = cs2.drop 11 :=
                  List.takeWhile_append_dropWhile _ _
                obtain ⟨t4, ht4⟩ :
                    ";base64,".data <+: ((cs2.drop 11).dropWhile isAsciiAlpha) :=
                  List.isPrefixOf_iff_prefix.mp hpre2
                have hdrop4 : ((cs2.drop 11).dropWhile isAsciiAlpha).drop 8 = t4 := by
                  rw [← ht4]
                  exact List.drop_left' (by decide)
                have e5 : ((cs2.drop 11).dropWhile isAsciiAlpha).drop 8 =
                    (((cs2.drop 11).dropWhile isAsciiAlpha).drop 8).takeWhile
                      (fun c => c ≠ ')') ++ (')' :: restp) := by
                  conv_lhs => rw [← List.takeWhile_append_dropWhile
                    (fun c => c ≠ ')') (((cs2.drop 11).dropWhile isAsciiAlpha).drop 8)]
                  rw [heq2]
                have e4 : (cs2.drop 11).dropWhile isAsciiAlpha =
                    ";base64,".data ++
                      ((((cs2.drop 11).dropWhile isAsciiAlpha).drop 8).takeWhile
                        (fun c => c ≠ ')') ++ (')' :: restp)) := by
                  rw [← e5, hdrop4, ht4]
                have e3 : cs2.drop 11 =
                    (cs2.drop 11).takeWhile isAsciiAlpha ++
                      (";base64,".data ++
                        ((((cs2.drop 11).dropWhile isAsciiAlpha).drop 8).takeWhile
                          (fun c => c ≠ ')') ++ (')' :: restp))) := by
                  conv_lhs => rw [← h3]
                  rw [← e4]
                have e2 : cs2 = "data:image/".data ++
                    ((cs2.drop 11).takeWhile isAsciiAlpha ++
                      (";base64,".data ++
                        ((((cs2.drop 11).dropWhile isAsciiAlpha).drop 8).takeWhile
                          (fun c => c ≠ ')') ++ (')' :: restp)))) := by
                  rw [← e3, hdrop2, ht2]
                conv_rhs => rw [← h1]
                conv_rhs => rw [e2]
                simp [ImgMatch.text, List.append_assoc]
              case _ => exact absurd h (by simp)
          case isFalse => exact absurd h (by simp)
      case isFalse => exact absurd h (by simp)
    case _ => exact absurd h (by simp)
  case _ => exact absurd h (by simp)

/-- The token decomposition is faithful: concatenating every token's
source text gives back the input. -/
theorem mdTokens_flat (cs : List Char) :
    ((mdTokens cs).map MdTok.flat).flatten = cs := by
  induction cs using mdTokens.induct with
  | case1 cs m rest hps ih =>
    rw [mdTokens]
    split
    case _ m2 rest2 hps2 =>
      rw [hps] at hps2
      obtain ⟨rfl, rfl⟩ : m = m2 ∧ rest = rest2 := by simpa using hps2
      simp only [List.map_cons, List.flatten_cons, MdTok.flat, ih]
      exact parseMatch_append cs m rest hps
    case _ hps2 => rw [hps] at hps2; exact absurd hps2 (by simp)
  | case2 hps =>
    rw [mdTokens]
    rfl
  | case3 c cs1 hps hpsb ih =>
    rw [mdTokens]
    split
    case _ m2 rest2 hps2 => rw [hps] at hps2; exact absurd hps2 (by simp)
    case _ hps2 => simp [MdTok.flat, ih]

/-! ## World-effect lemmas -/

theorem processOne_rows (sv : Service) (slug : String) (m : ImgMatch) (w : World) :
    ((processOne sv slug m w).2).rows = w.rows := by
  unfold processOne blobUpload World.rec1
  dsimp only
  split
  · rfl
  · split
    · rfl
    · split
      · rfl
      · split
        case _ heq =>
          split at heq <;> rw [Prod.mk.injEq] at heq <;>
            first
              | (obtain ⟨h1, h2⟩ := heq; subst h2; rfl)
              | simp_all
        case _ heq =>
          split at heq <;> rw [Prod.mk.injEq] at heq <;>
            first
              | (obtain ⟨h1, h2⟩ := heq; subst h2; rfl)
              | simp_all

theorem renderTokens_rows (sv : Service) (slug : String) (ts : List MdTok)
    (w : World) : ((renderTokens sv slug ts w).2).rows = w.rows := by
  induction ts generalizing w with
  | nil => rfl
  | cons t ts ih =>
    cases t with
    | lit c => simpa [renderTokens] using ih w
    | img m =>
      simp only [renderTokens]
      rw [ih]
      exact processOne_rows sv slug m w

theorem scanImages_rows (sv : Service) (slug : String) (cs : List Char)
    (w : World) : ((scanImages sv slug cs w).2).rows = w.rows := by
  rw [scanImages_eq_renderTokens]
  exact renderTokens_rows sv slug (mdTokens cs) w

theorem processMarkdownImages_rows (sv : Service) (slug content : String)
    (w : World) :
    ((processMarkdownImages sv slug content w).2).rows = w.rows :=
  scanImages_rows sv slug content.data w

/-- Rounding up by division with remainder equals ceiling division. -/
theorem div_mod_ceil (t p : Nat) (hp : 0 < p) :
    t / p + (if t % p > 0 then 1 else 0) = (t + p - 1) / p := by
  obtain ⟨q, r, hr, ht⟩ : ∃ q r, r < p ∧ t = p * q + r :=
    ⟨t / p, t % p, Nat.mod_lt t hp, (Nat.div_add_mod t p).symm⟩
  subst ht
  have hdiv : (p * q + r) / p = q := by
    rw [Nat.mul_add_div hp, Nat.div_eq_of_lt hr]
    omega
  have hmod : (p * q + r) % p = r := by
    rw [Nat.mul_add_mod, Nat.mod_eq_of_lt hr]
  rw [hdiv, hmod]
  rcases Nat.eq_zero_or_pos r with rfl | hrpos
  · simp only [gt_iff_lt, lt_irrefl, if_false, Nat.add_zero]
    have he : p * q + p - 1 = p * q + (p - 1) := by omega
    rw [he, Nat.mul_add_div hp, Nat.div_eq_of_lt (by omega)]
    omega
  · simp only [gt_iff_lt, hrpos, if_true]
    have he : p * q + r + p - 1 = p * (q + 1) + (r - 1) := by
      have hpq : p * (q + 1) = p * q + p := by ring
      omega
    rw [he, Nat.mul_add_div hp, Nat.div_eq_of_lt (by omega)]

/-! ## Claims -/

/-- C2: when the metadata store reports the slug as already taken,
`CreatePost` returns that `Conflict` (`ErrSlugExists`) error, and the
metadata insert is the only store call made — in particular no blob
upload, neither for the content nor from the image pipeline. -/
theorem C2_createPost_conflict_no_upload (sv : Service) (w : World)
    (title slug content : String)
    (hc : sv.faults.repoCreateErr slug = Option.none)
    (hex : w.rows.any (fun r => r.slug = slug) = true) :
    (createPost sv title slug content w).1 = .error .slugExists ∧
    ((createPost sv title slug content w).2).trace =
      w.trace ++ [.repoCreate title slug (contentKey slug)] := by
  unfold createPost repoCreate World.rec1
  rw [hc]
  simp [hex]

/-- C2 witness: creating slug `a` in a world that already has it. -/
theorem C2_witness :
    (createPost svOk "T2" "a" "body2" wA).1 = .error .slugExists ∧
    ((createPost svOk "T2" "a" "body2" wA).2).trace =
      wA.trace ++ [.repoCreate "T2" "a" (contentKey "a")] :=
  C2_createPost_conflict_no_upload svOk wA "T2" "a" "body2" rfl (by decide)

/-- C8: `ListPosts` normalizes `page` (≥1, default 1) and `perPage`
(∈ [1,100], default 20), queries the repository with limit `perPage` and
offset `(page-1)*perPage`, and returns the normalized values together
with `totalPages = ceil(total / perPage)`. -/
theorem C8_listPosts_pagination (sv : Service) (w : World)
    (page perPage : Int) (status : Option Status)
    (hl : sv.faults.repoListErr = Option.none)
    (hc : sv.faults.repoCountErr = Option.none) :
    ∃ r : ListResult,
      (listPosts sv page perPage status w).1 = .ok r ∧
      r.page = (if page < 1 then 1 else page) ∧
      r.perPage = (if perPage < 1 ∨ perPage > 100 then 20 else perPage) ∧
      ((listPosts sv page perPage status w).2).trace =
        w.trace ++ [.repoList r.perPage ((r.page - 1) * r.perPage) status,
          .repoCount status] ∧
      r.totalPages = (r.total + r.perPage.toNat - 1) / r.perPage.toNat ∧
      (r.total = 21 ∧ r.perPage = 20 → r.totalPages = 2) := by
  have hpp : (0:Int) < (if perPage < 1 ∨ perPage > 100 then 20 else perPage) := by
    split
    · omega
    · omega
  have main : ∃ r : ListResult,
      (listPosts sv page perPage status w).1 = .ok r ∧
      r.page = (if page < 1 then 1 else page) ∧
      r.perPage = (if perPage < 1 ∨ perPage > 100 then 20 else perPage) ∧
      ((listPosts sv page perPage status w).2).trace =
        w.trace ++ [.repoList r.perPage ((r.page - 1) * r.perPage) status,
          .repoCount status] ∧
      r.totalPages = (r.total + r.perPage.toNat - 1) / r.perPage.toNat := by
    unfold listPosts repoList repoCount World.rec1
    rw [hl, hc]
    refine ⟨_, rfl, rfl, rfl, ?_, ?_⟩
    · simp [List.append_assoc]
    · exact div_mod_ceil _ _ (by omega)
  obtain ⟨r, h1, h2, h3, h4, h5⟩ := main
  refine ⟨r, h1, h2, h3, h4, h5, ?_⟩
  rintro ⟨ha, hb⟩
  rw [h5, ha, hb]
  rfl

/-- C8 witness: `page=0, perPage=0` normalizes to `1`/`20`; with 21
matching rows, `totalPages = 2`. -/
theorem C8_witness :
    ∃ r : ListResult,
      (listPosts svOk 0 0 Option.none w21).1 = .ok r ∧
      r.page = (if (0:Int) < 1 then 1 else 0) ∧
      r.perPage = (if (0:Int) < 1 ∨ (0:Int) > 100 then 20 else 0) ∧
      ((listPosts svOk 0 0 Option.none w21).2).trace =
        w21.trace ++ [.repoList r.perPage ((r.page - 1) * r.perPage) Option.none,
          .repoCount Option.none] ∧
      r.totalPages = (r.total + r.perPage.toNat - 1) / r.perPage.toNat ∧
      (r.total = 21 ∧ r.perPage = 20 → r.totalPages = 2) :=
  C8_listPosts_pagination svOk w21 0 0 Option.none rfl rfl

/-- C7: whenever the repository's publish transition succeeds,
`PublishPost` makes exactly one notification call and returns the
published post without error, whatever the notifier does; a notifier
failure only appends a warning to the log. -/
theorem C7_publishPost_notification (sv : Service) (w : World)
    (slug : String) (p : Post)
    (hp : sv.faults.repoPublishErr slug = Option.none)
    (hf : w.rows.find? (fun r => r.slug = slug ∧ r.status = .draft) = some p) :
    (publishPost sv slug w).1 = .ok { p with status := .published } ∧
    ((publishPost sv slug w).2).trace =
      w.trace ++ [.repoPublish slug, .notify p.id p.slug p.title] ∧
    (∀ e, sv.faults.notifyErr = some e →
      ((publishPost sv slug w).2).log =
        w.log ++ ["failed to publish post.published event"]) ∧
    (sv.faults.notifyErr = Option.none →
      ((publishPost sv slug w).2).log = w.log) := by
  unfold publishPost repoPublish notifyPublished World.rec1
  dsimp only
  rw [hp, hf]
  rcases hn : sv.faults.notifyErr with _ | e <;>
    simp [hn, List.append_assoc]

/-- C7 witness: publishing draft `postA` under a notifier that always
fails still succeeds and logs the warning. -/
theorem C7_witness :
    (publishPost svNotifyFail "a" wA).1 = .ok { postA with status := .published } ∧
    ((publishPost svNotifyFail "a" wA).2).trace =
      wA.trace ++ [.repoPublish "a", .notify postA.id postA.slug postA.title] ∧
    (∀ e, svNotifyFail.faults.notifyErr = some e →
      ((publishPost svNotifyFail "a" wA).2).log =
        wA.log ++ ["failed to publish post.published event"]) ∧
    (svNotifyFail.faults.notifyErr = Option.none →
      ((publishPost svNotifyFail "a" wA).2).log = wA.log) :=
  C7_publishPost_notification svNotifyFail wA "a" postA rfl (by decide)

/-- C9: `GetPostContent` answers `ErrNotFound` both when the metadata
row is absent (with no blob call at all) and when the blob store reports
the content key missing, so the two absence cases are indistinguishable;
any other download error comes back wrapped and is not `ErrNotFound`. -/
theorem C9_getPostContent_notFound_unified (sv : Service) (w : World)
    (slug : String) :
    (sv.faults.repoGetErr slug = Option.none →
      w.rows.find? (fun r => r.slug = slug) = Option.none →
      (getPostContent sv slug w).1 = .error .postNotFound ∧
      ((getPostContent sv slug w).2).trace = w.trace ++ [.repoGet slug]) ∧
    (∀ p, sv.faults.repoGetErr slug = Option.none →
      w.rows.find? (fun r => r.slug = slug) = some p →
      sv.faults.downloadErr p.s3Key = Option.none →
      w.blobs.lookup p.s3Key = Option.none →
      (getPostContent sv slug w).1 = .error .postNotFound) ∧
    (∀ p e, sv.faults.repoGetErr slug = Option.none →
      w.rows.find? (fun r => r.slug = slug) = some p →
      sv.faults.downloadErr p.s3Key = some e →
      e ≠ .blobNotFound →
      (getPostContent sv slug w).1 = .error (.wrapped "download from s3" e) ∧
      (getPostContent sv slug w).1 ≠ .error .postNotFound) := by
  refine ⟨?_, ?_, ?_⟩
  · intro hg hf
    unfold getPostContent repoGetBySlug World.rec1
    dsimp only
    rw [hg, hf]
    simp
  · intro p hg hf hd hl
    unfold getPostContent repoGetBySlug blobDownload World.rec1
    dsimp only
    rw [hg, hf]
    dsimp only
    rw [hd, hl]
    simp
  · intro p e hg hf hd hne
    unfold getPostContent repoGetBySlug blobDownload World.rec1
    dsimp only
    rw [hg, hf]
    dsimp only
    rw [hd]
    simp [hne]

/-- C9 witness: slug `missing` is unknown; slug `a` exists but its blob
is gone in `wAEmptyBlobs`; slug `a` with an injected opaque download
error is wrapped, not `ErrNotFound`. -/
theorem C9_witness :
    ((getPostContent svOk "missing" wA).1 = .error .postNotFound ∧
      ((getPostContent svOk "missing" wA).2).trace =
        wA.trace ++ [.repoGet "missing"]) ∧
    (getPostContent svOk "a" wAEmptyBlobs).1 = .error .postNotFound ∧
    ((getPostContent svDownloadFail "a" wA).1 =
        .error (.wrapped "download from s3" (.storeErr 3)) ∧
      (getPostContent svDownloadFail "a" wA).1 ≠ .error .postNotFound) :=
  ⟨(C9_getPostContent_notFound_unified svOk wA "missing").1 rfl (by decide),
   (C9_getPostContent_notFound_unified svOk wAEmptyBlobs "a").2.1 postA rfl
     (by decide) rfl rfl,
   (C9_getPostContent_notFound_unified svDownloadFail wA "a").2.2 postA
     (.storeErr 3) rfl (by decide) (by decide) (by decide)⟩

/-- C10: when the stored content key is empty, `DeletePost` never calls
the blob-store single-key delete, whatever the collaborators do; when the
prefix delete and the metadata delete succeed, the call sequence is
lookup, image-prefix delete, metadata delete, and the call succeeds. -/
theorem C10_deletePost_empty_key_skips_blob (sv : Service) (w : World)
    (slug : String) (p : Post)
    (hg : sv.faults.repoGetErr slug = Option.none)
    (hf : w.rows.find? (fun r => r.slug = slug) = some p)
    (hk : p.s3Key = "") :
    (∀ k, Op.blobDelete k ∉
      ((deletePost sv slug w).2).trace.drop w.trace.length) ∧
    (sv.faults.deletePrefixErr (imagesPrefix p.slug) = Option.none →
      sv.faults.repoDeleteErr slug = Option.none →
      ((deletePost sv slug w).2).trace =
        w.trace ++ [.repoGet slug, .blobDeletePrefix (imagesPrefix p.slug),
          .repoDelete slug] ∧
      (deletePost sv slug w).1 = .ok ()) := by
  unfold deletePost repoGetBySlug blobDeletePrefix repoDelete World.rec1
  dsimp only
  rw [hg, hf]
  dsimp only
  rw [hk]
  constructor
  · intro k
    rcases hp1 : sv.faults.deletePrefixErr (imagesPrefix p.slug) with _ | e1
    · rcases hd1 : sv.faults.repoDeleteErr slug with _ | e2 <;>
        simp [hp1, hd1, List.append_assoc, List.drop_left]
    · simp [hp1, List.append_assoc, List.drop_left]
  · intro hp1 hd1
    rw [hp1, hd1]
    simp [List.append_assoc]

/-- C10 witness: deleting `empty-key`, whose row stores an empty content
key, in a fault-free world. -/
theorem C10_witness :
    (∀ k, Op.blobDelete k ∉
      ((deletePost svOk "empty-key" wEmptyKey).2).trace.drop wEmptyKey.trace.length) ∧
    (svOk.faults.deletePrefixErr (imagesPrefix postEmptyKey.slug) = Option.none →
      svOk.faults.repoDeleteErr "empty-key" = Option.none →
      ((deletePost svOk "empty-key" wEmptyKey).2).trace =
        wEmptyKey.trace ++ [.repoGet "empty-key",
          .blobDeletePrefix (imagesPrefix postEmptyKey.slug),
          .repoDelete "empty-key"] ∧
      (deletePost svOk "empty-key" wEmptyKey).1 = .ok ()) :=
  C10_deletePost_empty_key_skips_blob svOk wEmptyKey "empty-key" postEmptyKey
    rfl (by decide) rfl

/-- C5: `DeletePost` order and error handling — absent slug gives
`ErrNotFound` with no blob call; a failed content-blob delete is fatal
and leaves the metadata rows untouched; a failed image-prefix delete is
fatal and leaves the metadata rows untouched; on full success the calls
are lookup, content delete, prefix delete, metadata delete, in that
order with the metadata delete last. -/
theorem C5_deletePost_order_and_errors :
    (∀ (sv : Service) (w : World) (slug : String),
      sv.faults.repoGetErr slug = Option.none →
      w.rows.find? (fun r => r.slug = slug) = Option.none →
      (deletePost sv slug w).1 = .error .postNotFound ∧
      ((deletePost sv slug w).2).trace = w.trace ++ [.repoGet slug]) ∧
    (∀ (sv : Service) (w : World) (slug : String) (p : Post) (e : GoErr),
      sv.faults.repoGetErr slug = Option.none →
      w.rows.find? (fun r => r.slug = slug) = some p →
      p.s3Key ≠ "" →
      sv.faults.deleteErr p.s3Key = some e →
      (deletePost sv slug w).1 = .error (.wrapped "delete from s3" e) ∧
      ((deletePost sv slug w).2).rows = w.rows) ∧
    (∀ (sv : Service) (w : World) (slug : String) (p : Post) (e : GoErr),
      sv.faults.repoGetErr slug = Option.none →
      w.rows.find? (fun r => r.slug = slug) = some p →
      p.s3Key ≠ "" →
      sv.faults.deleteErr p.s3Key = Option.none →
      sv.faults.deletePrefixErr (imagesPrefix p.slug) = some e →
      (deletePost sv slug w).1 = .error (.wrapped "delete images from s3" e) ∧
      ((deletePost sv slug w).2).rows = w.rows) ∧
    (∀ (sv : Service) (w : World) (slug : String) (p : Post),
      sv.faults.repoGetErr slug = Option.none →
      w.rows.find? (fun r => r.slug = slug) = some p →
      p.s3Key ≠ "" →
      sv.faults.deleteErr p.s3Key = Option.none →
      sv.faults.deletePrefixErr (imagesPrefix p.slug) = Option.none →
      sv.faults.repoDeleteErr slug = Option.none →
      (deletePost sv slug w).1 = .ok () ∧
      ((deletePost sv slug w).2).trace =
        w.trace ++ [.repoGet slug, .blobDelete p.s3Key,
          .blobDeletePrefix (imagesPrefix p.slug), .repoDelete slug]) := by
  refine ⟨?_, ?_, ?_, ?_⟩
  · intro sv w slug hg hf
    unfold deletePost repoGetBySlug World.rec1
    dsimp only
    rw [hg, hf]
    simp
  · intro sv w slug p e hg hf hne hd
    unfold deletePost repoGetBySlug blobDelete World.rec1
    dsimp only
    rw [hg, hf]
    dsimp only
    rw [if_pos hne, hd]
    simp
  · intro sv w slug p e hg hf hne hd hp1
    unfold deletePost repoGetBySlug blobDelete blobDeletePrefix World.rec1
    dsimp only
    rw [hg, hf]
    dsimp only
    rw [if_pos hne, hd]
    dsimp only
    rw [hp1]
    simp
  · intro sv w slug p hg hf hne hd hp1 hr
    unfold deletePost repoGetBySlug blobDelete blobDeletePrefix repoDelete World.rec1
    dsimp only
    rw [hg, hf]
    dsimp only
    rw [if_pos hne, hd]
    dsimp only
    rw [hp1, hr]
    simp [List.append_assoc]

/-- C5 witness: the four scenarios on concrete worlds — unknown slug;
failing content delete; failing prefix delete; fault-free full delete. -/
theorem C5_witness :
    ((deletePost svOk "missing" wA).1 = .error .postNotFound ∧
      ((deletePost svOk "missing" wA).2).trace = wA.trace ++ [.repoGet "missing"]) ∧
    ((deletePost svDeleteFail "a" wA).1 =
        .error (.wrapped "delete from s3" (.storeErr 4)) ∧
      ((deletePost svDeleteFail "a" wA).2).rows = wA.rows) ∧
    ((deletePost svPrefixFail "a" wA).1 =
        .error (.wrapped "delete images from s3" (.storeErr 5)) ∧
      ((deletePost svPrefixFail "a" wA).2).rows = wA.rows) ∧
    ((deletePost svOk "a" wA).1 = .ok () ∧
      ((deletePost svOk "a" wA).2).trace =
        wA.trace ++ [.repoGet "a", .blobDelete postA.s3Key,
          .blobDeletePrefix (imagesPrefix postA.slug), .repoDelete "a"]) :=
  ⟨C5_deletePost_order_and_errors.1 svOk wA "missing" rfl (by decide),
   C5_deletePost_order_and_errors.2.1 svDeleteFail wA "a" postA (.storeErr 4)
     rfl (by decide) (by decide) (by decide),
   C5_deletePost_order_and_errors.2.2.1 svPrefixFail wA "a" postA (.storeErr 5)
     rfl (by decide) (by decide) rfl (by decide),
   C5_deletePost_order_and_errors.2.2.2 svOk wA "a" postA
     rfl (by decide) (by decide) rfl rfl rfl⟩

/-- C1: when the metadata insert succeeds but the content upload fails,
`CreatePost` returns the wrapped upload error, has issued a compensating
metadata delete, and — when that delete itself succeeds — the new row is
gone afterwards; a failing compensating delete does not change the
returned error. -/
theorem C1_createPost_upload_failure_compensation (sv : Service) (w : World)
    (title slug content : String) (e : GoErr)
    (hc : sv.faults.repoCreateErr slug = Option.none)
    (hno : w.rows.any (fun r => r.slug = slug) = false)
    (hu : sv.faults.uploadErr (contentKey slug) = some e) :
    (createPost sv title slug content w).1 = .error (.wrapped "upload to s3" e) ∧
    Op.repoDelete slug ∈ ((createPost sv title slug content w).2).trace ∧
    (sv.faults.repoDeleteErr slug = Option.none →
      ((createPost sv title slug content w).2).rows.any
        (fun r => r.slug = slug) = false) := by
  unfold createPost repoCreate World.rec1
  dsimp only
  rw [hc]
  dsimp only
  rw [hno]
  simp only [Bool.false_eq_true, if_false]
  unfold blobUpload World.rec1
  dsimp only
  rw [hu]
  dsimp only
  unfold repoDelete World.rec1
  dsimp only
  refine ⟨rfl, ?_, ?_⟩
  · rcases hd : sv.faults.repoDeleteErr slug with _ | e2 <;> simp [hd]
  · intro hd
    rw [hd]
    dsimp only
    rw [processMarkdownImages_rows]
    dsimp only
    rw [List.any_eq_false]
    intro r hr
    rw [List.mem_filter] at hr
    simp only [decide_eq_true_eq] at hr ⊢
    exact hr.2

/-- C1 witness: creating slug `b` in `wA` while the upload of
`posts/b.md` fails: the wrapped error comes back, the compensating
delete ran, and no row with slug `b` remains. -/
theorem C1_witness :
    (createPost svUploadFailB "T" "b" "body" wA).1 =
      .error (.wrapped "upload to s3" (.storeErr 6)) ∧
    Op.repoDelete "b" ∈ ((createPost svUploadFailB "T" "b" "body" wA).2).trace ∧
    (svUploadFailB.faults.repoDeleteErr "b" = Option.none →
      ((createPost svUploadFailB "T" "b" "body" wA).2).rows.any
        (fun r => r.slug = "b") = false) :=
  C1_createPost_upload_failure_compensation svUploadFailB wA "T" "b" "body"
    (.storeErr 6) rfl (by decide) (by decide)

/-- C3: with a fresh slug and all store operations succeeding,
`CreatePost` then `GetPostContent` round-trips: the bytes returned are
exactly the pipeline-processed content that `CreatePost` uploaded under
the content key. -/
theorem C3_create_then_get_roundtrip (sv : Service) (w : World)
    (title slug content : String)
    (hc : sv.faults.repoCreateErr slug = Option.none)
    (hno : w.rows.any (fun r => r.slug = slug) = false)
    (hu : sv.faults.uploadErr (contentKey slug) = Option.none)
    (hg : sv.faults.repoGetErr slug = Option.none)
    (hdl : sv.faults.downloadErr (contentKey slug) = Option.none) :
    ∃ pc : String,
      pc = (processMarkdownImages sv slug content
        ((repoCreate sv title slug (contentKey slug) w).2)).1 ∧
      (createPost sv title slug content w).1 =
        .ok { id := w.nextId, title := title, slug := slug,
              s3Key := contentKey slug, status := .draft } ∧
      Op.blobUpload (contentKey slug) pc "text/markdown" ∈
        ((createPost sv title slug content w).2).trace ∧
      (getPostContent sv slug ((createPost sv title slug content w).2)).1 =
        .ok pc := by
  have hnof : w.rows.find? (fun r => r.slug = slug) = Option.none := by
    rw [List.find?_eq_none]
    intro x hx
    rw [List.any_eq_false] at hno
    exact hno x hx
  refine ⟨_, rfl, ?_⟩
  unfold createPost repoCreate World.rec1
  dsimp only
  rw [hc]
  dsimp only
  rw [hno]
  simp only [Bool.false_eq_true, if_false]
  unfold blobUpload World.rec1
  dsimp only
  rw [hu]
  dsimp only
  refine ⟨rfl, by simp, ?_⟩
  unfold getPostContent repoGetBySlug blobDownload World.rec1
  dsimp only
  rw [hg]
  dsimp only
  rw [processMarkdownImages_rows]
  dsimp only
  rw [List.find?_append, hnof]
  simp only [Option.none_or, List.find?_cons, decide_eq_true_eq, decide_True]
  rw [hdl]
  dsimp only
  simp [List.lookup]

/-- C3 witness: creating slug `c` with an embedded image and reading it
back in a fault-free world. -/
theorem C3_witness :
    ∃ pc : String,
      pc = (processMarkdownImages svOk "c" "hi ![x](data:image/png;base64,AAAA)"
        ((repoCreate svOk "T" "c" (contentKey "c") wA).2)).1 ∧
      (createPost svOk "T" "c" "hi ![x](data:image/png;base64,AAAA)" wA).1 =
        .ok { id := wA.nextId, title := "T", slug := "c",
              s3Key := contentKey "c", status := .draft } ∧
      Op.blobUpload (contentKey "c") pc "text/markdown" ∈
        ((createPost svOk "T" "c" "hi ![x](data:image/png;base64,AAAA)" wA).2).trace ∧
      (getPostContent svOk "c"
        ((createPost svOk "T" "c" "hi ![x](data:image/png;base64,AAAA)" wA).2)).1 =
        .ok pc :=
  C3_create_then_get_roundtrip svOk wA "T" "c" "hi ![x](data:image/png;base64,AAAA)"
    rfl (by decide) rfl rfl rfl

/-- Looking up a key in a list from which it was just filtered out finds
nothing. -/
theorem lookup_filter_ne (l : List (String × String)) (k : String) :
    (l.filter (fun kv => kv.1 ≠ k)).lookup k = Option.none := by
  induction l with
  | nil => rfl
  | cons kv l ih =>
    by_cases h : kv.1 = k
    · rw [List.filter_cons]
      simp only [decide_eq_true_eq]
      rw [if_neg (by simp [h])]
      exact ih
    · simp only [List.filter_cons, decide_eq_true_eq]
      rw [if_pos h]
      rw [List.lookup_cons]
      have : (k == kv.1) = false := by
        simp [beq_eq_false_iff_ne]
        exact fun hk => h hk.symm
      rw [this]
      exact ih

/-- C6: `UpdatePost` with no content and a changed slug migrates the
blob — the old content key is downloaded, its bytes re-uploaded at
`posts/{newSlug}.md`, the old key deleted, and the metadata updated with
the new key, in that order; on a fully successful call the new key holds
the prior bytes and the old key is gone.  A failed download is fatal
(`DownloadFailure` wrapper) and the metadata update never runs. -/
theorem C6_updatePost_slug_migration :
    (∀ (sv : Service) (w : World) (currentSlug ns : String)
      (topt : Option String) (p : Post) (e : GoErr),
      sv.faults.repoGetErr currentSlug = Option.none →
      w.rows.find? (fun r => r.slug = currentSlug) = some p →
      ns ≠ currentSlug →
      sv.faults.downloadErr p.s3Key = some e →
      (updatePost sv currentSlug topt (some ns) Option.none w).1 =
        .error (.wrapped "download current content" e) ∧
      ((updatePost sv currentSlug topt (some ns) Option.none w).2).rows = w.rows ∧
      (∀ i t s k, Op.repoUpdate i t s k ∉
        ((updatePost sv currentSlug topt (some ns) Option.none w).2).trace.drop
          w.trace.length)) ∧
    (∀ (sv : Service) (w : World) (currentSlug ns : String)
      (topt : Option String) (p : Post) (data : String),
      sv.faults.repoGetErr currentSlug = Option.none →
      w.rows.find? (fun r => r.slug = currentSlug) = some p →
      ns ≠ currentSlug →
      sv.faults.downloadErr p.s3Key = Option.none →
      w.blobs.lookup p.s3Key = some data →
      sv.faults.uploadErr (contentKey ns) = Option.none →
      sv.faults.deleteErr p.s3Key = Option.none →
      sv.faults.repoUpdateErr = Option.none →
      p.s3Key ≠ contentKey ns →
      w.rows.find? (fun r => r.id = p.id) = some p →
      w.rows.any (fun r => r.slug = ns ∧ r.id ≠ p.id) = false →
      (updatePost sv currentSlug topt (some ns) Option.none w).1 =
        .ok { p with
          title := match topt with | some t => t | none => p.title,
          slug := ns, s3Key := contentKey ns } ∧
      ((updatePost sv currentSlug topt (some ns) Option.none w).2).blobs.lookup
        (contentKey ns) = some data ∧
      ((updatePost sv currentSlug topt (some ns) Option.none w).2).blobs.lookup
        p.s3Key = Option.none ∧
      ((updatePost sv currentSlug topt (some ns) Option.none w).2).trace =
        w.trace ++ [.repoGet currentSlug, .blobDownload p.s3Key,
          .blobUpload (contentKey ns) data "text/markdown",
          .blobDelete p.s3Key,
          .repoUpdate p.id
            (match topt with | some t => t | none => p.title) ns
            (contentKey ns)]) := by
  constructor
  · intro sv w currentSlug ns topt p e hg hf hne hde
    unfold updatePost repoGetBySlug blobDownload World.rec1
    dsimp only
    rw [hg, hf]
    dsimp only
    rw [if_pos (by
      intro hcon
      exact hne hcon)]
    rw [hde]
    dsimp only
    refine ⟨rfl, rfl, ?_⟩
    intro i t s k
    simp [List.append_assoc, List.drop_left]
  · intro sv w currentSlug ns topt p data hg hf hne hdl hlk hup hdel hru hkey
      hid hnoc
    unfold updatePost repoGetBySlug blobDownload blobUpload blobDelete
      repoUpdate World.rec1
    dsimp only
    rw [hg, hf]
    dsimp only
    rw [if_pos (by
      intro hcon
      exact hne hcon)]
    rw [hdl]
    dsimp only
    rw [hlk]
    dsimp only
    rw [hup]
    dsimp only
    rw [hdel]
    dsimp only
    rw [hru]
    dsimp only
    rw [List.filter_cons]
    simp only [decide_eq_true_eq]
    rw [if_pos (show contentKey ns ≠ p.s3Key from fun hc => hkey hc.symm)]
    rw [hid]
    dsimp only
    rw [hnoc]
    simp only [Bool.false_eq_true, if_false]
    cases topt with
    | none =>
      refine ⟨by trivial, ?_, ?_, ?_⟩
      · rw [List.lookup_cons]
        simp
      · rw [List.lookup_cons]
        have : (p.s3Key == contentKey ns) = false := by
          simp [beq_eq_false_iff_ne, hkey]
        rw [this]
        exact lookup_filter_ne w.blobs p.s3Key
      · simp [List.append_assoc]
    | some t =>
      refine ⟨by trivial, ?_, ?_, ?_⟩
      · rw [List.lookup_cons]
        simp
      · rw [List.lookup_cons]
        have : (p.s3Key == contentKey ns) = false := by
          simp [beq_eq_false_iff_ne, hkey]
        rw [this]
        exact lookup_filter_ne w.blobs p.s3Key
      · simp [List.append_assoc]

/-- C6 witness: renaming `a` to `b` without content — the failing
scenario under an injected download fault, and the fully successful
migration moving `body` from `posts/a.md` to `posts/b.md`. -/
theorem C6_witness :
    ((updatePost svDownloadFail "a" Option.none (some "b") Option.none wA).1 =
        .error (.wrapped "download current content" (.storeErr 3)) ∧
      ((updatePost svDownloadFail "a" Option.none (some "b") Option.none wA).2).rows =
        wA.rows ∧
      (∀ i t s k, Op.repoUpdate i t s k ∉
        ((updatePost svDownloadFail "a" Option.none (some "b") Option.none
          wA).2).trace.drop wA.trace.length)) ∧
    ((updatePost svOk "a" Option.none (some "b") Option.none wA).1 =
        .ok { postA with title := postA.title, slug := "b", s3Key := contentKey "b" } ∧
      ((updatePost svOk "a" Option.none (some "b") Option.none wA).2).blobs.lookup
        (contentKey "b") = some "body" ∧
      ((updatePost svOk "a" Option.none (some "b") Option.none wA).2).blobs.lookup
        postA.s3Key = Option.none ∧
      ((updatePost svOk "a" Option.none (some "b") Option.none wA).2).trace =
        wA.trace ++ [.repoGet "a", .blobDownload postA.s3Key,
          .blobUpload (contentKey "b") "body" "text/markdown",
          .blobDelete postA.s3Key,
          .repoUpdate postA.id postA.title "b" (contentKey "b")]) :=
  ⟨C6_updatePost_slug_migration.1 svDownloadFail wA "a" "b" Option.none postA
     (.storeErr 3) rfl (by decide) (by decide) (by decide),
   C6_updatePost_slug_migration.2 svOk wA "a" "b" Option.none postA "body"
     rfl (by decide) (by decide) rfl (by decide) rfl rfl rfl (by decide)
     (by decide) (by decide)⟩

/-- C4: the image pipeline never fails as a whole — the scan is exactly
the faithful token decomposition rendered token by token (literal text
copied unchanged, matches processed independently), the public URL obeys
the base-URL/canonical-S3 rule, and each single match is left
character-for-character unchanged on a disallowed subtype, an
undecodable payload, an oversized decode, or a failed upload (which
changes no blob), and otherwise is replaced by `![alt](publicURL)` after
the decoded bytes are uploaded under the generated image key. -/
theorem C4_image_pipeline_independent_matches (sv : Service) (slug : String) :
    (∀ content w,
      processMarkdownImages sv slug content w =
        (String.mk (renderTokens sv slug (mdTokens content.data) w).1,
          (renderTokens sv slug (mdTokens content.data) w).2)) ∧
    (∀ cs, ((mdTokens cs).map MdTok.flat).flatten = cs) ∧
    (∀ key, (sv.s3PublicBaseURL ≠ "" →
        s3PublicURL sv key = sv.s3PublicBaseURL ++ "/" ++ key) ∧
      (sv.s3PublicBaseURL = "" →
        s3PublicURL sv key =
          "https://" ++ sv.s3Bucket ++ ".s3." ++ sv.awsRegion ++
            ".amazonaws.com/" ++ key)) ∧
    (∀ (m : ImgMatch) (w : World),
      (allowedTypes (String.mk (m.ext.map Char.toLower)) = Option.none →
        processOne sv slug m w = (m.text, w)) ∧
      (base64Decode (m.payload.filter (fun c => c ≠ '\n' ∧ c ≠ '\r')) =
          Option.none →
        processOne sv slug m w = (m.text, w)) ∧
      (∀ data,
        base64Decode (m.payload.filter (fun c => c ≠ '\n' ∧ c ≠ '\r')) =
          some data →
        data.length > maxImageSize →
        processOne sv slug m w = (m.text, w)) ∧
      (∀ ct data e,
        allowedTypes (String.mk (m.ext.map Char.toLower)) = some ct →
        base64Decode (m.payload.filter (fun c => c ≠ '\n' ∧ c ≠ '\r')) =
          some data →
        data.length ≤ maxImageSize →
        sv.faults.uploadErr (imgKey slug w.nextId (m.ext.map Char.toLower)) =
          some e →
        (processOne sv slug m w).1 = m.text ∧
        ((processOne sv slug m w).2).blobs = w.blobs ∧
        Op.blobUpload (imgKey slug w.nextId (m.ext.map Char.toLower))
          (bytesToString data) ct ∈ ((processOne sv slug m w).2).trace) ∧
      (∀ ct data,
        allowedTypes (String.mk (m.ext.map Char.toLower)) = some ct →
        base64Decode (m.payload.filter (fun c => c ≠ '\n' ∧ c ≠ '\r')) =
          some data →
        data.length ≤ maxImageSize →
        sv.faults.uploadErr (imgKey slug w.nextId (m.ext.map Char.toLower)) =
          Option.none →
        processOne sv slug m w =
          ("![".data ++ m.alt ++ "](".data ++
            (s3PublicURL sv (imgKey slug w.nextId (m.ext.map Char.toLower))).data
              ++ [')'],
           { w with
               nextId := w.nextId + 1
               trace := w.trace ++
                 [Op.blobUpload (imgKey slug w.nextId (m.ext.map Char.toLower))
                   (bytesToString data) ct]
               blobs := (imgKey slug w.nextId (m.ext.map Char.toLower),
                 bytesToString data) :: w.blobs }))) := by
  refine ⟨?_, mdTokens_flat, ?_, ?_⟩
  · intro content w
    unfold processMarkdownImages
    rw [scanImages_eq_renderTokens]
  · intro key
    constructor
    · intro h
      unfold s3PublicURL
      rw [if_pos h]
    · intro h
      unfold s3PublicURL
      rw [h]
      simp
  · intro m w
    refine ⟨?_, ?_, ?_, ?_, ?_⟩
    · intro hA
      unfold processOne
      dsimp only
      rw [hA]
    · intro hB
      unfold processOne
      dsimp only
      rcases hA : allowedTypes (String.mk (m.ext.map Char.toLower)) with _ | ct
      · rfl
      · dsimp only
        rw [hB]
    · intro data hB hsz
      unfold processOne
      dsimp only
      rcases hA : allowedTypes (String.mk (m.ext.map Char.toLower)) with _ | ct
      · rfl
      · dsimp only
        rw [hB]
        dsimp only
        rw [if_pos hsz]
    · intro ct data e hA hB hsz hU
      unfold processOne blobUpload World.rec1
      dsimp only
      rw [hA]
      dsimp only
      rw [hB]
      dsimp only
      rw [if_neg (by omega)]
      rw [show "posts/" ++ slug ++ "/images/" ++ toString w.nextId ++ "." ++
        String.mk (m.ext.map Char.toLower) =
          imgKey slug w.nextId (m.ext.map Char.toLower) from rfl]
      rw [hU]
      dsimp only
      exact ⟨rfl, rfl, by simp⟩
    · intro ct data hA hB hsz hU
      unfold processOne blobUpload World.rec1
      dsimp only
      rw [hA]
      dsimp only
      rw [hB]
      dsimp only
      rw [if_neg (by omega)]
      rw [show "posts/" ++ slug ++ "/images/" ++ toString w.nextId ++ "." ++
        String.mk (m.ext.map Char.toLower) =
          imgKey slug w.nextId (m.ext.map Char.toLower) from rfl]
      rw [hU]

/-- C4 witness: the decomposition equality on a mixed text; a disallowed
`svg` match and an undecodable payload left unchanged; a failed image
upload leaving the text and blobs unchanged; and a successful replacement
uploading the decoded byte under the generated key. -/
theorem C4_witness :
    (processMarkdownImages svOk "sl" "x![a](data:image/png;base64,QQ==)y" w0 =
      (String.mk (renderTokens svOk "sl"
          (mdTokens ("x![a](data:image/png;base64,QQ==)y").data) w0).1,
        (renderTokens svOk "sl"
          (mdTokens ("x![a](data:image/png;base64,QQ==)y").data) w0).2)) ∧
    (allowedTypes (String.mk (mSvg.ext.map Char.toLower)) = Option.none ∧
      processOne svOk "sl" mSvg w0 = (mSvg.text, w0)) ∧
    (base64Decode (mBadB64.payload.filter (fun c => c ≠ '\n' ∧ c ≠ '\r')) =
        Option.none ∧
      processOne svOk "sl" mBadB64 w0 = (mBadB64.text, w0)) ∧
    ((processOne svImgUploadFail "sl" mPng w0).1 = mPng.text ∧
      ((processOne svImgUploadFail "sl" mPng w0).2).blobs = w0.blobs ∧
      Op.blobUpload (imgKey "sl" w0.nextId (mPng.ext.map Char.toLower))
        (bytesToString [65]) "image/png" ∈
        ((processOne svImgUploadFail "sl" mPng w0).2).trace) ∧
    processOne svOk "sl" mPng w0 =
      ("![".data ++ mPng.alt ++ "](".data ++
        (s3PublicURL svOk (imgKey "sl" w0.nextId (mPng.ext.map Char.toLower))).data
          ++ [')'],
       { w0 with
           nextId := w0.nextId + 1
           trace := w0.trace ++
             [Op.blobUpload (imgKey "sl" w0.nextId (mPng.ext.map Char.toLower))
               (bytesToString [65]) "image/png"]
           blobs := (imgKey "sl" w0.nextId (mPng.ext.map Char.toLower),
             bytesToString [65]) :: w0.blobs }) :=
  ⟨(C4_image_pipeline_independent_matches svOk "sl").1
      "x![a](data:image/png;base64,QQ==)y" w0,
   ⟨by decide,
    ((C4_image_pipeline_independent_matches svOk "sl").2.2.2 mSvg w0).1
      (by decide)⟩,
   ⟨by decide,
    ((C4_image_pipeline_independent_matches svOk "sl").2.2.2 mBadB64 w0).2.1
      (by decide)⟩,
   ((C4_image_pipeline_independent_matches svImgUploadFail "sl").2.2.2 mPng
      w0).2.2.2.1 "image/png" [65] (.storeErr 8) (by decide) (by decide)
      (by decide) (by decide),
   ((C4_image_pipeline_independent_matches svOk "sl").2.2.2 mPng w0).2.2.2.2
      "image/png" [65] (by decide) (by decide) (by decide) rfl⟩

end Entries
